import Mathlib

/-
Verification of the early-boot bump allocator (dual-cursor arena),
`modules/bump_allocator/src/lib.rs`.

The allocator state is four `usize` fields; every operation is embedded as a
pure function.  Machine integers are modelled as `Nat` together with the
64-bit bound `USIZE = 2 ^ 64`; an arithmetic step that a checked Rust build
would abort on (overflowing `+`/`*`, underflowing `-`) is made explicit with
`checked_add` / `checked_sub` / `checked_mul`, and an operation that panics
(failed `assert!`, arithmetic overflow, `unimplemented!()`) yields the
`fatal` outcome, which produces no successor state.
-/

/-- The modulus of `usize` arithmetic: the allocator runs on a 64-bit target. -/
def USIZE : Nat := 2 ^ 64

/-- Error kinds of the `allocator` crate surfaced by this module.
`NoMemory` and `InvalidParam` are the two variants the source file returns.
`Unsupported` is modelled from the spec: section 6 lists an
`Unsupported` error kind, and the crate defining `AllocError` is outside
this module's sources. -/
inductive AllocError where
  | NoMemory
  | InvalidParam
  | Unsupported
  deriving DecidableEq, Repr

/-- State of `EarlyAllocator<PAGE_SIZE>`: the four `usize` fields. -/
structure EarlyAllocator where
  start : Nat
  «end» : Nat
  b_pos : Nat
  p_pos : Nat
  deriving DecidableEq, Repr

/-- Outcome of one allocator call: `ok v s` returns `Ok(v)` leaving the
allocator in state `s`; `err e s` returns `Err(e)` leaving it in state `s`;
`fatal` models a Rust panic (failed assertion, checked-arithmetic overflow,
`unimplemented!()`) — the call never returns and has no successor state. -/
inductive Outcome (α : Type) where
  | ok : α → EarlyAllocator → Outcome α
  | err : AllocError → EarlyAllocator → Outcome α
  | fatal : Outcome α
  deriving DecidableEq, Repr

/-- Bitwise NOT on `usize`: for `x < 2 ^ 64`, `!x = 2 ^ 64 - 1 - x`. -/
def not_usize (x : Nat) : Nat := (USIZE - 1) - x

/-- Addition on `usize` with the overflow check of a checked Rust build:
`none` models the panic. -/
def checked_add (x y : Nat) : Option Nat :=
  if x + y < USIZE then some (x + y) else none

/-- Subtraction on `usize`; `none` models the underflow panic. -/
def checked_sub (x y : Nat) : Option Nat :=
  if y ≤ x then some (x - y) else none

/-- Multiplication on `usize`; `none` models the overflow panic. -/
def checked_mul (x y : Nat) : Option Nat :=
  if x * y < USIZE then some (x * y) else none

/-- Source helper `fn align_down(pos, align) = pos & !(align - 1)`.
Its only caller passes a power-of-two `align`, so `align ≥ 1`. -/
def align_down (pos align : Nat) : Nat := pos &&& not_usize (align - 1)

/-- Source helper `fn align_up(pos, align) = (pos + align - 1) & !(align - 1)`;
the addition `pos + align` may overflow `usize`. -/
def align_up (pos align : Nat) : Option Nat :=
  match checked_add pos align with
  | none => none
  | some t =>
    match checked_sub t 1 with
    | none => none
    | some t2 => some (t2 &&& not_usize (align - 1))

/-- The `usize::is_power_of_two` test: exactly one bit set, equivalently
`n != 0 && n & (n - 1) == 0`. -/
def is_power_of_two (n : Nat) : Bool := (n != 0) && ((n &&& (n - 1)) == 0)

/-- Method `BaseAllocator::init`: asserts `PAGE_SIZE.is_power_of_two()`,
rounds `start` down and `start + size` up to page granularity, and puts the
byte cursor at the low end and the page cursor at the high end.  It
overwrites every field, so the prior state is irrelevant; `none` models a
panic (failed assert, or `usize` overflow in `start + size` / `align_up`). -/
def EarlyAllocator.init (PAGE_SIZE start size : Nat) : Option EarlyAllocator :=
  if is_power_of_two PAGE_SIZE then
    match checked_add start size with
    | none => none
    | some ssum =>
      match align_up ssum PAGE_SIZE with
      | none => none
      | some e =>
        some (EarlyAllocator.mk (align_down start PAGE_SIZE) e (align_down start PAGE_SIZE) e)
  else
    none

/-- Method `BaseAllocator::add_memory`: `Err(AllocError::NoMemory)`, with the
source comment `// unsupported`; the state is untouched. -/
def EarlyAllocator.add_memory (a : EarlyAllocator) (_start _size : Nat) : Outcome Unit :=
  .err .NoMemory a

/-- The `core::alloc::Layout` argument of `alloc`: a size and an alignment.
Its type invariant (alignment a power of two, rounded size below
`isize::MAX`) is assumed at use sites, matching the Rust type. -/
structure Layout where
  size : Nat
  align : Nat
  deriving DecidableEq, Repr

/-- Method `Layout::pad_to_align`: round the size up to a multiple of the
(power-of-two) alignment; the mask arithmetic cannot overflow thanks to
`Layout`'s type invariant. -/
def Layout.pad_to_align (l : Layout) : Layout :=
  Layout.mk ((l.size + l.align - 1) &&& not_usize (l.align - 1)) l.align

/-- Method `ByteAllocator::alloc`.  The source computes
`new_b_pos = self.b_pos + layout.size()` and bound-checks it against
`p_pos`, but never stores it back into `self.b_pos`; accordingly the success
path returns the state unchanged, exactly as the code behaves. -/
def EarlyAllocator.alloc (a : EarlyAllocator) (layout : Layout) : Outcome Nat :=
  let layout := layout.pad_to_align
  match checked_add a.b_pos layout.size with
  | none => .fatal
  | some new_b_pos =>
    if new_b_pos > a.p_pos then
      .err .NoMemory a
    else
      .ok a.b_pos a

/-- Method `ByteAllocator::dealloc`: a no-op with an empty body. -/
def EarlyAllocator.dealloc (a : EarlyAllocator) (_pos : Nat) (_layout : Layout) : EarlyAllocator :=
  a

/-- Method `ByteAllocator::total_bytes = self.p_pos - self.start`
(the `usize` subtraction cannot underflow while the arena invariant holds). -/
def EarlyAllocator.total_bytes (a : EarlyAllocator) : Nat := a.p_pos - a.start

/-- Method `ByteAllocator::used_bytes = self.b_pos - self.start`. -/
def EarlyAllocator.used_bytes (a : EarlyAllocator) : Nat := a.b_pos - a.start

/-- Method `ByteAllocator::available_bytes = total_bytes() - used_bytes()`. -/
def EarlyAllocator.available_bytes (a : EarlyAllocator) : Nat :=
  a.total_bytes - a.used_bytes

/-- Method `PageAllocator::alloc_pages`.  `fatal` marks the `usize`
arithmetic a checked build panics on: the `%`/`/` by a zero `PAGE_SIZE`,
the overflow of `num_pages + remain` or `num_pages * PAGE_SIZE`, and the
unguarded subtraction `self.p_pos - num_pages * PAGE_SIZE`, which underflows
whenever the adjusted request exceeds `p_pos`. -/
def EarlyAllocator.alloc_pages (PAGE_SIZE : Nat) (a : EarlyAllocator)
    (num_pages align_pow2 : Nat) : Outcome Nat :=
  if PAGE_SIZE = 0 then .fatal
  else if align_pow2 % PAGE_SIZE != 0 then .err .InvalidParam a
  else
    let align_pow2 := align_pow2 / PAGE_SIZE
    if ! is_power_of_two align_pow2 then .err .InvalidParam a
    else
      let remain := align_pow2 - num_pages % align_pow2
      match checked_add num_pages remain with
      | none => .fatal
      | some num_pages =>
        match checked_mul num_pages PAGE_SIZE with
        | none => .fatal
        | some bytes =>
          match checked_sub a.p_pos bytes with
          | none => .fatal
          | some new_p_pos =>
            if new_p_pos < a.b_pos then
              .err .NoMemory a
            else
              .ok new_p_pos (EarlyAllocator.mk a.start a.«end» a.b_pos new_p_pos)

/-- Method `PageAllocator::dealloc_pages`: `unimplemented!()`, an
unconditional panic; the state is never touched. -/
def EarlyAllocator.dealloc_pages (_a : EarlyAllocator) (_pos _num_pages : Nat) : Outcome Unit :=
  .fatal

/-- Method `PageAllocator::total_pages = (self.end - self.b_pos) / PAGE_SIZE`. -/
def EarlyAllocator.total_pages (PAGE_SIZE : Nat) (a : EarlyAllocator) : Nat :=
  (a.«end» - a.b_pos) / PAGE_SIZE

/-- Method `PageAllocator::used_pages = (self.end - self.p_pos) / PAGE_SIZE`. -/
def EarlyAllocator.used_pages (PAGE_SIZE : Nat) (a : EarlyAllocator) : Nat :=
  (a.«end» - a.p_pos) / PAGE_SIZE

/-- Method `PageAllocator::available_pages = total_pages() - used_pages()`. -/
def EarlyAllocator.available_pages (PAGE_SIZE : Nat) (a : EarlyAllocator) : Nat :=
  a.total_pages PAGE_SIZE - a.used_pages PAGE_SIZE

/-- The arena invariant of the spec: `start ≤ b_pos ≤ p_pos ≤ end`. -/
def EarlyAllocator.Inv (a : EarlyAllocator) : Prop :=
  a.start ≤ a.b_pos ∧ a.b_pos ≤ a.p_pos ∧ a.p_pos ≤ a.«end»

instance (a : EarlyAllocator) : Decidable a.Inv := by
  unfold EarlyAllocator.Inv
  infer_instance

/-- States reachable from a successful `init` by any sequence of allocator
calls that return to the caller; a panicking call (`fatal`, including every
`dealloc_pages` call) has no successor state.  Accounting methods take
`&self` and never mutate. -/
inductive EarlyAllocator.Reachable (PAGE_SIZE : Nat) : EarlyAllocator → Prop where
  | of_init : ∀ start size a,
      EarlyAllocator.init PAGE_SIZE start size = some a →
      EarlyAllocator.Reachable PAGE_SIZE a
  | of_alloc_ok : ∀ a l v a2, EarlyAllocator.Reachable PAGE_SIZE a →
      a.alloc l = .ok v a2 → EarlyAllocator.Reachable PAGE_SIZE a2
  | of_alloc_err : ∀ a l e a2, EarlyAllocator.Reachable PAGE_SIZE a →
      a.alloc l = .err e a2 → EarlyAllocator.Reachable PAGE_SIZE a2
  | of_dealloc : ∀ a pos l, EarlyAllocator.Reachable PAGE_SIZE a →
      EarlyAllocator.Reachable PAGE_SIZE (a.dealloc pos l)
  | of_add_memory : ∀ a s z e a2, EarlyAllocator.Reachable PAGE_SIZE a →
      a.add_memory s z = .err e a2 → EarlyAllocator.Reachable PAGE_SIZE a2
  | of_alloc_pages_ok : ∀ a n al v a2, EarlyAllocator.Reachable PAGE_SIZE a →
      a.alloc_pages PAGE_SIZE n al = .ok v a2 → EarlyAllocator.Reachable PAGE_SIZE a2
  | of_alloc_pages_err : ∀ a n al e a2, EarlyAllocator.Reachable PAGE_SIZE a →
      a.alloc_pages PAGE_SIZE n al = .err e a2 → EarlyAllocator.Reachable PAGE_SIZE a2

/-- Claim C1 (code-bug exhibit).  On the fresh arena from `init(0, 4096)`
with `PAGE_SIZE = 4096`, the call `alloc(Layout { size := 64, align := 8 })`
pads the size to 64 and succeeds returning address 0, but the returned state
is identical to the input state, so `used_bytes()` afterwards is still `0`
instead of the old value plus the padded size (64): the source never stores
`new_b_pos` back into `b_pos`. -/
theorem alloc_does_not_advance_b_pos :
    (Layout.mk 64 8).pad_to_align.size = 64 ∧
    (EarlyAllocator.mk 0 4096 0 4096).alloc (Layout.mk 64 8) =
      .ok 0 (EarlyAllocator.mk 0 4096 0 4096) ∧
    (EarlyAllocator.mk 0 4096 0 4096).used_bytes = 0 := by
  refine ⟨by decide, by decide, by decide⟩

/-- Claim C2 (code-bug exhibit).  A successful `alloc` of 64 padded bytes on
the fresh arena returns address 0 and leaves the state identical, so the
immediately following identical call also succeeds and also returns 0: the
two returned ranges, each of the padded size starting at 0, coincide rather
than being disjoint, and the addresses 0, 0 are not strictly increasing. -/
theorem alloc_addresses_not_disjoint :
    (EarlyAllocator.mk 0 4096 0 4096).alloc (Layout.mk 64 8) =
      .ok 0 (EarlyAllocator.mk 0 4096 0 4096) ∧
    ¬ (0 + (Layout.mk 64 8).pad_to_align.size ≤ 0) := by
  refine ⟨by decide, by decide⟩

/-- Claim C3 (counterexample).  `add_memory` on a concrete arena returns the
out-of-memory kind `AllocError::NoMemory`, which is a different kind from
`Unsupported`; the claim that the returned error is of the Unsupported kind
(as opposed to the out-of-memory kind) is false. -/
theorem add_memory_no_memory_kind :
    (EarlyAllocator.mk 0 4096 0 4096).add_memory 16384 4096 =
      .err .NoMemory (EarlyAllocator.mk 0 4096 0 4096) ∧
    AllocError.NoMemory ≠ AllocError.Unsupported := by
  refine ⟨rfl, by decide⟩

/-- Claim C3 (amended).  For every arena state and every `(start, size)`
argument pair, `add_memory` fails and leaves the arena unchanged, but the
error kind it returns is `NoMemory` (the out-of-memory kind); the source
only marks the intent with a `// unsupported` comment. -/
theorem add_memory_always_fails_unchanged (a : EarlyAllocator) (start size : Nat) :
    a.add_memory start size = .err .NoMemory a :=
  rfl

/-- Claim C5 (code-bug exhibit).  On the fresh arena from `init(0, 4096)`
with `PAGE_SIZE = 4096` (one available page), the request
`alloc_pages(num_pages := 2, align_bytes := 4096)` is adjusted to 3 pages
(12288 bytes), which exceeds the available space; instead of returning the
out-of-memory error with cursors unchanged, the unguarded subtraction
`self.p_pos - num_pages * PAGE_SIZE` underflows `usize`, i.e. the call
panics in a checked build (and in a wrapping build the bound check is
bypassed and `p_pos` is set far beyond `end`). -/
theorem alloc_pages_underflow_fatal :
    (EarlyAllocator.mk 0 4096 0 4096).available_pages 4096 = 1 ∧
    (EarlyAllocator.mk 0 4096 0 4096).alloc_pages 4096 2 4096 = .fatal := by
  refine ⟨by decide, by decide⟩

/-- Claim C9.  For every arena state and every `(pos, num_pages)` argument
pair, `dealloc_pages` signals the fatal not-implemented condition
(`unimplemented!()`): it never returns normally and never mutates the arena. -/
theorem dealloc_pages_always_fatal (a : EarlyAllocator) (pos num_pages : Nat) :
    a.dealloc_pages pos num_pages = .fatal :=
  rfl

/-- Inversion of a successful checked `usize` addition. -/
theorem checked_add_some {x y z : Nat} (h : checked_add x y = some z) :
    z = x + y ∧ x + y < USIZE := by
  unfold checked_add at h
  split at h <;> simp_all

/-- Inversion of a successful checked `usize` subtraction. -/
theorem checked_sub_some {x y z : Nat} (h : checked_sub x y = some z) :
    z = x - y ∧ y ≤ x := by
  unfold checked_sub at h
  split at h <;> simp_all

/-- Inversion of a successful checked `usize` multiplication. -/
theorem checked_mul_some {x y z : Nat} (h : checked_mul x y = some z) :
    z = x * y ∧ x * y < USIZE := by
  unfold checked_mul at h
  split at h <;> simp_all

/-- A number accepted by the `is_power_of_two` test is a power of two. -/
theorem is_power_of_two_sound {n : Nat} (h : is_power_of_two n = true) :
    ∃ k, n = 2 ^ k := by
  unfold is_power_of_two at h
  rw [Bool.and_eq_true, bne_iff_ne, beq_iff_eq] at h
  obtain ⟨h0, h1⟩ := h
  refine ⟨n.log2, ?_⟩
  by_contra hne
  have hle : 2 ^ n.log2 ≤ n := Nat.log2_self_le h0
  have hlt : n < 2 ^ (n.log2 + 1) := Nat.lt_log2_self
  have hpow : (2 : Nat) ^ (n.log2 + 1) = 2 ^ n.log2 * 2 := by rw [pow_succ]
  have hd1 : n / 2 ^ n.log2 = 1 := by
    apply Nat.div_eq_of_lt_le <;> omega
  have hd2 : (n - 1) / 2 ^ n.log2 = 1 := by
    apply Nat.div_eq_of_lt_le <;> omega
  have hb1 : n.testBit n.log2 = true := by
    rw [Nat.testBit_to_div_mod, hd1]
    rfl
  have hb2 : (n - 1).testBit n.log2 = true := by
    rw [Nat.testBit_to_div_mod, hd2]
    rfl
  have hc : (n &&& (n - 1)).testBit n.log2 = false := by
    rw [h1]
    exact Nat.zero_testBit _
  rw [Nat.testBit_and, hb1, hb2] at hc
  simp at hc

/-- Arithmetic meaning of the power-of-two mask of `align_down`/`align_up`:
clearing the low `k` bits of a 64-bit value rounds it down to a multiple of
`2 ^ k`. -/
theorem land_not_mask (k x : Nat) (hk : k ≤ 64) (hx : x < USIZE) :
    x &&& not_usize (2 ^ k - 1) = 2 ^ k * (x / 2 ^ k) := by
  have h1 : (2 : Nat) ^ k ≤ 2 ^ 64 := Nat.pow_le_pow_right (by omega) hk
  have h2 : (1 : Nat) ≤ 2 ^ k := Nat.one_le_two_pow
  have hsplit : (2 : Nat) ^ (64 - k) * 2 ^ k = 2 ^ 64 := by
    rw [← pow_add]
    congr 1
    omega
  have hmask : not_usize (2 ^ k - 1) = (2 ^ (64 - k) - 1) <<< k := by
    rw [Nat.shiftLeft_eq, Nat.sub_mul, one_mul, hsplit]
    unfold not_usize USIZE
    omega
  have hdiv : 2 ^ k * (x / 2 ^ k) = (x >>> k) <<< k := by
    rw [Nat.shiftRight_eq_div_pow, Nat.shiftLeft_eq, Nat.mul_comm]
  rw [hmask, hdiv]
  apply Nat.eq_of_testBit_eq
  intro i
  rw [Nat.testBit_and, Nat.testBit_shiftLeft, Nat.testBit_shiftLeft,
    Nat.testBit_shiftRight, Nat.testBit_two_pow_sub_one]
  by_cases hik : i ≥ k
  · by_cases hi64 : i < 64
    · have e1 : k + (i - k) = i := by omega
      have e2 : i - k < 64 - k := by omega
      simp [hik, e1, e2]
    · have hxf : x.testBit i = false := by
        apply Nat.testBit_lt_two_pow
        have : (2 : Nat) ^ 64 ≤ 2 ^ i := Nat.pow_le_pow_right (by omega) (by omega)
        unfold USIZE at hx
        omega
      have e1 : k + (i - k) = i := by omega
      simp [hik, e1, hxf]
  · simp [hik]

/-- On a power-of-two alignment, `align_down` is rounding down to a multiple. -/
theorem align_down_eq (x k : Nat) (hk : k ≤ 64) (hx : x < USIZE) :
    align_down x (2 ^ k) = 2 ^ k * (x / 2 ^ k) := by
  unfold align_down
  exact land_not_mask k x hk hx

/-- When `align_up` returns on a power-of-two alignment, it returns the input
rounded up to a multiple of the alignment. -/
theorem align_up_eq_some {x k e : Nat} (hk : k ≤ 64)
    (h : align_up x (2 ^ k) = some e) :
    e = 2 ^ k * ((x + 2 ^ k - 1) / 2 ^ k) ∧ x + 2 ^ k < USIZE := by
  have h2 : (1 : Nat) ≤ 2 ^ k := Nat.one_le_two_pow
  unfold align_up at h
  split at h
  · simp at h
  next t hadd =>
    obtain ⟨rfl, hlt⟩ := checked_add_some hadd
    split at h
    · simp at h
    next t2 hsub =>
      obtain ⟨rfl, _⟩ := checked_sub_some hsub
      simp only [Option.some.injEq] at h
      subst h
      refine ⟨?_, hlt⟩
      exact land_not_mask k (x + 2 ^ k - 1) hk (by omega)

/-- A successful `init` establishes the arena invariant, puts the cursors at
the rounded bounds, and both bounds are multiples of `PAGE_SIZE`. -/
theorem init_inv {PS start size : Nat} {a : EarlyAllocator} (hPS : PS < USIZE)
    (h : EarlyAllocator.init PS start size = some a) :
    a.Inv ∧ a.start % PS = 0 ∧ a.«end» % PS = 0 ∧
      a.b_pos = a.start ∧ a.p_pos = a.«end» := by
  unfold EarlyAllocator.init at h
  split at h
  case isFalse => simp at h
  case isTrue hpow =>
    obtain ⟨k, rfl⟩ := is_power_of_two_sound hpow
    have hk64 : k < 64 := by
      by_contra hge
      have : (2 : Nat) ^ 64 ≤ 2 ^ k := Nat.pow_le_pow_right (by omega) (by omega)
      unfold USIZE at hPS
      omega
    split at h
    · simp at h
    next ssum hss =>
      obtain ⟨rfl, hlt⟩ := checked_add_some hss
      split at h
      · simp at h
      next e he =>
        simp only [Option.some.injEq] at h
        subst h
        obtain ⟨he', _⟩ := align_up_eq_some (by omega) he
        have hstart : start < USIZE := by omega
        have hdown : align_down start (2 ^ k) = 2 ^ k * (start / 2 ^ k) :=
          align_down_eq start k (by omega) hstart
        have hpos : (0 : Nat) < 2 ^ k := Nat.pos_pow_of_pos k (by omega)
        have hdle : 2 ^ k * (start / 2  ^ k) ≤ start := by
          rw [Nat.mul_comm]
          exact Nat.div_mul_le_self start (2 ^ k)
        have hup_ge : start + size ≤ 2 ^ k * ((start + size + 2 ^ k - 1) / 2 ^ k) := by
          have hdm := Nat.div_add_mod (start + size + 2 ^ k - 1) (2 ^ k)
          have hm : (start + size + 2 ^ k - 1) % 2 ^ k < 2 ^ k :=
            Nat.mod_lt _ hpos
          omega
        refine ⟨⟨?_, ?_, ?_⟩, ?_, ?_, rfl, rfl⟩
        · exact Nat.le_refl _
        · simp only [hdown, he']
          omega
        · exact Nat.le_refl _
        · simp only [hdown]
          exact Nat.mul_mod_right _ _
        · simp only [he']
          exact Nat.mul_mod_right _ _

/-- A successful `alloc` leaves the allocator state unchanged (the source
never writes the advanced cursor back). -/
theorem alloc_ok_state {a : EarlyAllocator} {l : Layout} {v : Nat}
    {a2 : EarlyAllocator} (h : a.alloc l = .ok v a2) : a2 = a := by
  simp only [EarlyAllocator.alloc] at h
  split at h
  · simp at h
  next new_b_pos hadd =>
    split at h
    · simp at h
    · cases h
      rfl

/-- A failing `alloc` leaves the allocator state unchanged. -/
theorem alloc_err_state {a : EarlyAllocator} {l : Layout} {e : AllocError}
    {a2 : EarlyAllocator} (h : a.alloc l = .err e a2) : a2 = a := by
  simp only [EarlyAllocator.alloc] at h
  split at h
  · simp at h
  next new_b_pos hadd =>
    split at h
    · cases h
      rfl
    · simp at h

/-- A successful `alloc_pages` keeps `start`, `end` and `b_pos`, and moves
`p_pos` downward but not below `b_pos`; the returned address is the new
`p_pos`. -/
theorem alloc_pages_ok_state {PS : Nat} {a : EarlyAllocator} {n al v : Nat}
    {a2 : EarlyAllocator} (h : a.alloc_pages PS n al = .ok v a2) :
    a2.start = a.start ∧ a2.«end» = a.«end» ∧ a2.b_pos = a.b_pos ∧
      a.b_pos ≤ a2.p_pos ∧ a2.p_pos ≤ a.p_pos ∧ v = a2.p_pos := by
  simp only [EarlyAllocator.alloc_pages] at h
  split at h
  · simp at h
  split at h
  · simp at h
  split at h
  · simp at h
  split at h
  · simp at h
  next np hadd =>
    split at h
    · simp at h
    next bytes hmul =>
      split at h
      · simp at h
      next new_p_pos hsub =>
        obtain ⟨rfl, hle⟩ := checked_sub_some hsub
        split at h
        · simp at h
        next hguard =>
          cases h
          refine ⟨rfl, rfl, rfl, ?_, ?_, rfl⟩
          · show a.b_pos ≤ a.p_pos - bytes
            omega
          · show a.p_pos - bytes ≤ a.p_pos
            omega

/-- A failing `alloc_pages` leaves the allocator state unchanged. -/
theorem alloc_pages_err_state {PS : Nat} {a : EarlyAllocator} {n al : Nat}
    {e : AllocError} {a2 : EarlyAllocator}
    (h : a.alloc_pages PS n al = .err e a2) : a2 = a := by
  simp only [EarlyAllocator.alloc_pages] at h
  split at h
  · simp at h
  split at h
  · cases h
    rfl
  split at h
  · cases h
    rfl
  split at h
  · simp at h
  next np hadd =>
    split at h
    · simp at h
    next bytes hmul =>
      split at h
      · simp at h
      next new_p_pos hsub =>
        split at h
        · cases h
          rfl
        · simp at h

/-- Every reachable state satisfies the arena invariant. -/
theorem reachable_inv {PS : Nat} (hPS : PS < USIZE) {a : EarlyAllocator}
    (h : EarlyAllocator.Reachable PS a) : a.Inv := by
  induction h with
  | of_init s z a0 h0 => exact (init_inv hPS h0).1
  | of_alloc_ok a0 l v a2 _ hstep ih =>
    rw [alloc_ok_state hstep]
    exact ih
  | of_alloc_err a0 l e a2 _ hstep ih =>
    rw [alloc_err_state hstep]
    exact ih
  | of_dealloc a0 pos l _ ih => exact ih
  | of_add_memory a0 s z e a2 _ hstep ih =>
    have : a2 = a0 := by cases hstep; rfl
    rw [this]
    exact ih
  | of_alloc_pages_ok a0 n al v a2 _ hstep ih =>
    obtain ⟨h1, h2, h3, h4, h5, _⟩ := alloc_pages_ok_state hstep
    obtain ⟨i1, i2, i3⟩ := ih
    refine ⟨?_, ?_, ?_⟩
    · rw [h1, h3]
      exact i1
    · rw [h3]
      exact h4
    · rw [h2]
      omega
  | of_alloc_pages_err a0 n al e a2 _ hstep ih =>
    rw [alloc_pages_err_state hstep]
    exact ih

/-- Claim C7.  For a `PAGE_SIZE` that fits in `usize`: (1) immediately after
any successful `init(start, size)` the invariant `start ≤ b_pos ≤ p_pos ≤ end`
holds and both bounds are multiples of `PAGE_SIZE`; (2) the invariant holds
in every state reachable from an `init` by any sequence of allocator calls
that return (a panicking call, such as every `dealloc_pages`, never returns
and has no successor state; the accounting methods take `&self` and do not
mutate). -/
theorem init_establishes_and_ops_preserve_inv (PS : Nat) (hPS : PS < USIZE) :
    (∀ start size a, EarlyAllocator.init PS start size = some a →
      a.Inv ∧ a.start % PS = 0 ∧ a.«end» % PS = 0) ∧
    (∀ a, EarlyAllocator.Reachable PS a → a.Inv) := by
  constructor
  · intro s z a h
    obtain ⟨h1, h2, h3, _, _⟩ := init_inv hPS h
    exact ⟨h1, h2, h3⟩
  · intro a h
    exact reachable_inv hPS h

/-- Witness for claim C7 at `PAGE_SIZE = 4096`, `init(0, 4096)`. -/
theorem init_establishes_and_ops_preserve_inv_witness :
    4096 < USIZE ∧
    ((EarlyAllocator.mk 0 4096 0 4096).Inv ∧
      (EarlyAllocator.mk 0 4096 0 4096).start % 4096 = 0 ∧
      (EarlyAllocator.mk 0 4096 0 4096).«end» % 4096 = 0) :=
  ⟨by decide,
    (init_establishes_and_ops_preserve_inv 4096 (by decide)).1 0 4096
      (EarlyAllocator.mk 0 4096 0 4096) (by decide)⟩

/-- Claim C8.  In every reachable state, `used_bytes() + available_bytes()`
equals `total_bytes()` and `used_pages() + available_pages()` equals
`total_pages()`. -/
theorem accounting_sums (PS : Nat) (hPS : PS < USIZE) (a : EarlyAllocator)
    (h : EarlyAllocator.Reachable PS a) :
    a.used_bytes + a.available_bytes = a.total_bytes ∧
    a.used_pages PS + a.available_pages PS = a.total_pages PS := by
  obtain ⟨i1, i2, i3⟩ := reachable_inv hPS h
  constructor
  · unfold EarlyAllocator.available_bytes EarlyAllocator.total_bytes
      EarlyAllocator.used_bytes
    omega
  · have hmono : a.used_pages PS ≤ a.total_pages PS := by
      unfold EarlyAllocator.used_pages EarlyAllocator.total_pages
      exact Nat.div_le_div_right (by omega)
    unfold EarlyAllocator.available_pages
    omega

/-- Witness for claim C8 on the reachable state produced by `init(0, 4096)`
with `PAGE_SIZE = 4096`. -/
theorem accounting_sums_witness :
    (EarlyAllocator.mk 0 4096 0 4096).used_bytes +
        (EarlyAllocator.mk 0 4096 0 4096).available_bytes =
      (EarlyAllocator.mk 0 4096 0 4096).total_bytes ∧
    (EarlyAllocator.mk 0 4096 0 4096).used_pages 4096 +
        (EarlyAllocator.mk 0 4096 0 4096).available_pages 4096 =
      (EarlyAllocator.mk 0 4096 0 4096).total_pages 4096 :=
  accounting_sums 4096 (by decide) (EarlyAllocator.mk 0 4096 0 4096)
    (EarlyAllocator.Reachable.of_init 0 4096 (EarlyAllocator.mk 0 4096 0 4096)
      (by decide))

/-- Claim C4.  When the two alignment checks of `alloc_pages` pass, the page
count is adjusted by exactly `remain = align_in_pages - num_pages % align_in_pages`
(so an exact multiple is still rounded up by a full extra alignment unit),
and a successful call decreases `p_pos` by exactly `adjusted * PAGE_SIZE`,
returning the new `p_pos`. -/
theorem alloc_pages_rounding (PS : Nat) (a : EarlyAllocator)
    (num_pages align_bytes : Nat) (hPS : PS ≠ 0)
    (hmod : align_bytes % PS = 0)
    (hpow : is_power_of_two (align_bytes / PS) = true) :
    (align_bytes / PS ∣ num_pages →
      num_pages + (align_bytes / PS - num_pages % (align_bytes / PS)) =
        num_pages + align_bytes / PS) ∧
    (∀ v a2, a.alloc_pages PS num_pages align_bytes = .ok v a2 →
      a2.p_pos +
          (num_pages + (align_bytes / PS - num_pages % (align_bytes / PS))) * PS =
        a.p_pos ∧ v = a2.p_pos) := by
  constructor
  · intro hdvd
    have hz : num_pages % (align_bytes / PS) = 0 := Nat.mod_eq_zero_of_dvd hdvd
    rw [hz, Nat.sub_zero]
  · intro v a2 h
    simp only [EarlyAllocator.alloc_pages] at h
    rw [if_neg hPS] at h
    have hmod' : ¬ ((align_bytes % PS != 0) = true) := by
      simp [hmod]
    rw [if_neg hmod'] at h
    have hpow' : ¬ ((! is_power_of_two (align_bytes / PS)) = true) := by
      simp [hpow]
    rw [if_neg hpow'] at h
    split at h
    · simp at h
    next np hadd =>
      obtain ⟨rfl, _⟩ := checked_add_some hadd
      split at h
      · simp at h
      next bytes hmul =>
        obtain ⟨rfl, _⟩ := checked_mul_some hmul
        split at h
        · simp at h
        next new_p_pos hsub =>
          obtain ⟨rfl, hle⟩ := checked_sub_some hsub
          split at h
          · simp at h
          · cases h
            refine ⟨?_, rfl⟩
            show a.p_pos - _ * PS + _ * PS = a.p_pos
            omega

/-- Witness for claim C4: an 8-page arena, `alloc_pages(2, 4096)` with
`PAGE_SIZE = 4096` is adjusted to 3 pages and moves `p_pos` from 32768 down
to 20480. -/
theorem alloc_pages_rounding_witness :
    (4096 : Nat) ≠ 0 ∧ (4096 : Nat) % 4096 = 0 ∧
      is_power_of_two (4096 / 4096) = true ∧
    ((EarlyAllocator.mk 0 32768 0 20480).p_pos +
        (2 + (4096 / 4096 - 2 % (4096 / 4096))) * 4096 =
      (EarlyAllocator.mk 0 32768 0 32768).p_pos ∧
      20480 = (EarlyAllocator.mk 0 32768 0 20480).p_pos) :=
  ⟨by decide, by decide, by decide,
    (alloc_pages_rounding 4096 (EarlyAllocator.mk 0 32768 0 32768) 2 4096
        (by decide) (by decide) (by decide)).2 20480
      (EarlyAllocator.mk 0 32768 0 20480) (by decide)⟩

/-- Claim C6.  For a nonzero `PAGE_SIZE`: if `align_bytes` is not a multiple
of `PAGE_SIZE`, or `align_bytes / PAGE_SIZE` is not a power of two,
`alloc_pages` returns the invalid-parameter error with the state unchanged;
otherwise its result is never the invalid-parameter error. -/
theorem alloc_pages_invalid_param (PS : Nat) (a : EarlyAllocator)
    (num_pages align_bytes : Nat) (hPS : PS ≠ 0) :
    (¬ (align_bytes % PS = 0 ∧ is_power_of_two (align_bytes / PS) = true) →
      a.alloc_pages PS num_pages align_bytes = .err .InvalidParam a) ∧
    ((align_bytes % PS = 0 ∧ is_power_of_two (align_bytes / PS) = true) →
      ∀ a2, a.alloc_pages PS num_pages align_bytes ≠ .err .InvalidParam a2) := by
  constructor
  · intro hbad
    by_cases hmod : align_bytes % PS = 0
    · have hpow : is_power_of_two (align_bytes / PS) = false := by
        rcases Bool.eq_false_or_eq_true (is_power_of_two (align_bytes / PS)) with ht | hf
        · exact absurd ⟨hmod, ht⟩ hbad
        · exact hf
      simp [EarlyAllocator.alloc_pages, hPS, hmod, hpow]
    · simp [EarlyAllocator.alloc_pages, hPS, hmod]
  · rintro ⟨hmod, hpow⟩ a2 h
    simp only [EarlyAllocator.alloc_pages] at h
    rw [if_neg hPS] at h
    have hmod' : ¬ ((align_bytes % PS != 0) = true) := by
      simp [hmod]
    rw [if_neg hmod'] at h
    have hpow' : ¬ ((! is_power_of_two (align_bytes / PS)) = true) := by
      simp [hpow]
    rw [if_neg hpow'] at h
    split at h
    · simp at h
    next np hadd =>
      split at h
      · simp at h
      next bytes hmul =>
        split at h
        · simp at h
        next new_p_pos hsub =>
          split at h
          · cases h
          · simp at h

/-- Witness for claim C6 at `PAGE_SIZE = 4096`, `align_bytes = 100`
(not a multiple of the page size). -/
theorem alloc_pages_invalid_param_witness :
    (4096 : Nat) ≠ 0 ∧
    (EarlyAllocator.mk 0 4096 0 4096).alloc_pages 4096 1 100 =
      .err .InvalidParam (EarlyAllocator.mk 0 4096 0 4096) :=
  ⟨by decide,
    (alloc_pages_invalid_param 4096 (EarlyAllocator.mk 0 4096 0 4096) 1 100
        (by decide)).1 (by decide)⟩

/-- Claim C10.  For a nonzero `PAGE_SIZE`, `alloc_pages` with
`align_bytes = 0` passes the first check (`0` is a multiple of `PAGE_SIZE`)
but `0 / PAGE_SIZE = 0` fails the power-of-two check, so the call returns
the invalid-parameter error with the state unchanged, and the rounding
step's modulo by `align_in_pages` is never reached with a zero divisor. -/
theorem alloc_pages_align_zero (PS : Nat) (a : EarlyAllocator)
    (num_pages : Nat) (hPS : PS ≠ 0) :
    (0 : Nat) % PS = 0 ∧ is_power_of_two (0 / PS) = false ∧
    a.alloc_pages PS num_pages 0 = .err .InvalidParam a := by
  refine ⟨Nat.zero_mod PS, ?_, ?_⟩
  · rw [Nat.zero_div]
    rfl
  · simp [EarlyAllocator.alloc_pages, hPS, Nat.zero_mod, Nat.zero_div,
      is_power_of_two]

/-- Witness for claim C10 at `PAGE_SIZE = 4096`. -/
theorem alloc_pages_align_zero_witness :
    (4096 : Nat) ≠ 0 ∧
    ((0 : Nat) % 4096 = 0 ∧ is_power_of_two (0 / 4096) = false ∧
      (EarlyAllocator.mk 0 4096 0 4096).alloc_pages 4096 7 0 =
        .err .InvalidParam (EarlyAllocator.mk 0 4096 0 4096)) :=
  ⟨by decide,
    alloc_pages_align_zero 4096 (EarlyAllocator.mk 0 4096 0 4096) 7 (by decide)⟩
